import Mathlib

/-!
Shallow embedding of the shopping-cart store of `src/context/CartContext.tsx`
(repository `wizzzey-store-web`), together with a model of the JSON values
that flow through the localStorage hydration/persistence effects.

JavaScript numbers are modelled as `Int` (the cart logic only adds,
multiplies and compares quantities and prices), strings as `String`,
arrays as `List`.  The identity test `item.id === product.id` on strings
is string equality.
-/

/-- Modelled from the spec: the `Product` record supplied by the catalog
collaborator (§6: identifier, name, price, image references, stock flag,
category).  The concrete `Product` type lives in `src/lib/types`, which is
not part of the provided sources; the fields here follow the spec and the
accesses visible in the shop pages (`product.id`, `product.name`,
`product.price`, `product.images`, `product.inStock`,
`product.categoryName`).  Display-only fields that no cart operation or
claim reads (description, size/color options) are omitted. -/
structure Product where
  id : String
  name : String
  price : Int
  images : List String
  inStock : Bool
  categoryName : String
deriving DecidableEq

/-- Modelled from the spec: a cart line item is a copy of the product's
fields plus a `quantity` (§3, §6); in the source `CartItem` extends
`Product` and `addToCart` builds one by `{ ...product, quantity }`. -/
structure CartItem extends Product where
  quantity : Int
deriving DecidableEq

/-- `addToCart` of `CartContext.tsx` (lines 51–66): if an item with the
product's id is found, every matching item's quantity becomes
`Math.max(0, item.quantity + quantity)`; otherwise a new item
`{ ...product, quantity: Math.max(1, quantity) }` is appended. -/
def addToCart (product : Product) (quantity : Int) (prevItems : List CartItem) :
    List CartItem :=
  match prevItems.find? (fun item => item.id == product.id) with
  | some _ =>
      prevItems.map (fun item =>
        if item.id == product.id then
          { item with quantity := max 0 (item.quantity + quantity) }
        else item)
  | none => prevItems ++ [{ toProduct := product, quantity := max 1 quantity }]

/-- `removeFromCart` (lines 68–70): keep the items whose id differs. -/
def removeFromCart (productId : String) (prevItems : List CartItem) :
    List CartItem :=
  prevItems.filter (fun item => item.id != productId)

/-- `updateQuantity` (lines 72–82): a non-positive quantity delegates to
`removeFromCart`; otherwise every item with the given id gets exactly the
new quantity. -/
def updateQuantity (productId : String) (quantity : Int)
    (prevItems : List CartItem) : List CartItem :=
  if quantity ≤ 0 then removeFromCart productId prevItems
  else
    prevItems.map (fun item =>
      if item.id == productId then { item with quantity := quantity } else item)

/-- `clearCart` (line 84–86): the state becomes the empty list. -/
def clearCart (_prevItems : List CartItem) : List CartItem := []

/-- `cartTotal` (line 88): `reduce((total, item) => total + item.price * item.quantity, 0)`. -/
def cartTotal (cartItems : List CartItem) : Int :=
  cartItems.foldl (fun total item => total + item.price * item.quantity) 0

/-- `itemCount` (line 89): `reduce((count, item) => count + item.quantity, 0)`. -/
def itemCount (cartItems : List CartItem) : Int :=
  cartItems.foldl (fun count item => count + item.quantity) 0

/-- One mutation operation of the cart store, as exposed by the provider. -/
inductive CartOp where
  | add : Product → Int → CartOp
  | remove : String → CartOp
  | setQ : String → Int → CartOp
  | clear : CartOp

/-- Apply one mutation operation to a cart state. -/
def applyOp (items : List CartItem) : CartOp → List CartItem
  | .add p q => addToCart p q items
  | .remove productId => removeFromCart productId items
  | .setQ productId q => updateQuantity productId q items
  | .clear => clearCart items

/-- Run a sequence of mutation operations from the initial empty cart
(`useState<CartItem[]>([])`). -/
def runOps (ops : List CartOp) : List CartItem :=
  ops.foldl applyOp []

/-- A sequence of `addToCart` calls for one product (used for the
repeated-add claims). -/
def addSeq (product : Product) (qs : List Int) (items : List CartItem) :
    List CartItem :=
  qs.foldl (fun s q => addToCart product q s) items

/-- JSON values, as produced by `JSON.parse` / consumed by
`JSON.stringify`.  Numbers are modelled as `Int`. -/
inductive Json where
  | null : Json
  | bool : Bool → Json
  | num : Int → Json
  | str : String → Json
  | arr : List Json → Json
  | obj : List (String × Json) → Json

/-- The hydration effect of `CartProvider` (lines 25–42), as a function of
the outcome of `localStorage.getItem` + `JSON.parse`:
`none` models an absent stored value (`localData` falsy, nothing happens);
`some (.error _)` models a `JSON.parse` throw (caught; the entry is
removed); `some (.ok j)` models parsed data `j`, accepted via
`setCartItems(parsedData)` exactly when `Array.isArray(parsedData)` holds,
and otherwise the entry is removed.  The result is the cart state after
the effect (the raw parsed entries; the initial state is the empty list)
paired with whether `localStorage.removeItem` was called. -/
def hydrate : Option (Except Unit Json) → List Json × Bool
  | none => ([], false)
  | some (Except.error _) => ([], true)
  | some (Except.ok (Json.arr elems)) => (elems, false)
  | some (Except.ok Json.null) => ([], true)
  | some (Except.ok (Json.bool _)) => ([], true)
  | some (Except.ok (Json.num _)) => ([], true)
  | some (Except.ok (Json.str _)) => ([], true)
  | some (Except.ok (Json.obj _)) => ([], true)

/-- The id field of a stored entry, as the code would read `item.id`. -/
def jsonId : Json → Option String
  | Json.obj fields =>
      match fields.lookup "id" with
      | some (Json.str s) => some s
      | _ => none
  | _ => none

/-- Modelled from the spec: §6 storage layout — a well-formed stored line
item is an object with at least an `id` string field and a `quantity`
number field.  This is the spec's notion of "well-formed line item",
stated for comparison with what the code actually checks. -/
def isLineItem (j : Json) : Bool :=
  match j with
  | Json.obj fields =>
      (match fields.lookup "id" with
       | some (Json.str _) => true
       | _ => false)
      &&
      (match fields.lookup "quantity" with
       | some (Json.num _) => true
       | _ => false)
  | _ => false

/-- Modelled from the spec: a well-formed stored cart is a sequence
(array) of well-formed line items (§4.2, §6). -/
def isLineItemSeq (j : Json) : Bool :=
  match j with
  | Json.arr elems => elems.all isLineItem
  | _ => false

/-- Serialization of one line item, as `JSON.stringify` renders the
`CartItem` object (field order = object insertion order: the spread
product fields, then `quantity`). -/
def encodeItem (it : CartItem) : Json :=
  Json.obj [("id", Json.str it.id), ("name", Json.str it.name),
    ("price", Json.num it.price),
    ("images", Json.arr (it.images.map Json.str)),
    ("inStock", Json.bool it.inStock),
    ("categoryName", Json.str it.categoryName),
    ("quantity", Json.num it.quantity)]

/-- Serialization of the whole cart state (the persistence effect writes
`JSON.stringify(cartItems)`, a JSON array). -/
def encodeCart (items : List CartItem) : Json :=
  Json.arr (items.map encodeItem)

/-- Decode a list of JSON strings back to strings. -/
def decodeStrs : List Json → Option (List String)
  | [] => some []
  | Json.str s :: rest => (decodeStrs rest).map (fun l => s :: l)
  | _ => none

/-- Decode one stored entry back to a `CartItem`; inverse of `encodeItem`
on its image, used to state the serialize/hydrate round trip. -/
def decodeItem : Json → Option CartItem
  | Json.obj [("id", Json.str i), ("name", Json.str n),
      ("price", Json.num p), ("images", Json.arr im),
      ("inStock", Json.bool s), ("categoryName", Json.str c),
      ("quantity", Json.num q)] =>
      (decodeStrs im).map (fun images =>
        { toProduct :=
            { id := i, name := n, price := p, images := images,
              inStock := s, categoryName := c },
          quantity := q })
  | _ => none

/-- Decode a whole stored cart. -/
def decodeCart (entries : List Json) : Option (List CartItem) :=
  match entries with
  | [] => some []
  | j :: rest =>
      match decodeItem j, decodeCart rest with
      | some it, some its => some (it :: its)
      | _, _ => none

/-- The value exposed through the context (the operation closures of the
provider act on the shared state and are modelled by the state functions
above; the data fields are carried here). -/
structure CartContextType where
  cartItems : List CartItem
  cartTotal : Int
  itemCount : Int
  hasMounted : Bool

/-- `useCart` (lines 100–106): throws when the context value is undefined
(no `CartProvider` in scope), otherwise returns the context value. -/
def useCart : Option CartContextType → Except String CartContextType
  | none => Except.error "useCart must be used within a CartProvider"
  | some context => Except.ok context

/-- Concrete product used by the spec's scenarios (`{id:"p1", price:10}`). -/
def P1 : Product :=
  { id := "p1", name := "Product 1", price := 10, images := [],
    inStock := true, categoryName := "c" }

lemma addToCart_of_present (p : Product) (q : Int) (items : List CartItem)
    (h : ∃ it ∈ items, it.id = p.id) :
    addToCart p q items = items.map (fun item =>
      if item.id == p.id then { item with quantity := max 0 (item.quantity + q) }
      else item) := by
  unfold addToCart
  cases hf : items.find? (fun item => item.id == p.id) with
  | some it => rfl
  | none =>
      exfalso
      rw [List.find?_eq_none] at hf
      obtain ⟨it, hm, hid⟩ := h
      exact hf it hm (by simpa using hid)

lemma addToCart_of_absent (p : Product) (q : Int) (items : List CartItem)
    (h : ∀ it ∈ items, it.id ≠ p.id) :
    addToCart p q items = items ++ [{ toProduct := p, quantity := max 1 q }] := by
  unfold addToCart
  rw [List.find?_eq_none.mpr (fun it hm => by simpa using h it hm)]

lemma map_update_id (items : List CartItem) (productId : String)
    (g : CartItem → CartItem) (hg : ∀ it, (g it).id = it.id) :
    (items.map (fun item => if item.id == productId then g item else item)).map
        (fun it => it.id) = items.map (fun it => it.id) := by
  induction items with
  | nil => rfl
  | cons a l ih =>
      simp only [List.map_cons, ih]
      by_cases h : a.id == productId
      · rw [if_pos h, hg]
      · rw [if_neg h]

lemma map_update_absent (items : List CartItem) (productId : String)
    (g : CartItem → CartItem) (h : ∀ it ∈ items, it.id ≠ productId) :
    items.map (fun item => if item.id == productId then g item else item)
      = items := by
  induction items with
  | nil => rfl
  | cons a l ih =>
      simp only [List.map_cons]
      rw [if_neg (by simpa using h a (List.mem_cons_self a l)),
        ih (fun it hm => h it (List.mem_cons_of_mem a hm))]

/-- C1: for every cart state, `addToCart product q`: when an item with the
product's id exists it becomes `max 0 (old quantity + q)` while every item
stays in the cart (the id list is unchanged — a resulting quantity of 0 does
not remove it); when no such item exists, a new item is appended whose
quantity is `max 1 q` and whose other fields are the product's fields copied
at insertion time. -/
theorem C1_addToCart_spec (p : Product) (q : Int) (items : List CartItem) :
    ((∃ it ∈ items, it.id = p.id) →
      addToCart p q items = items.map (fun item =>
        if item.id == p.id then
          { item with quantity := max 0 (item.quantity + q) }
        else item)
      ∧ (addToCart p q items).map (fun it => it.id)
          = items.map (fun it => it.id))
  ∧ ((∀ it ∈ items, it.id ≠ p.id) →
      addToCart p q items = items ++ [{ toProduct := p, quantity := max 1 q }]) := by
  refine ⟨fun h => ⟨addToCart_of_present p q items h, ?_⟩, addToCart_of_absent p q items⟩
  rw [addToCart_of_present p q items h]
  exact map_update_id items p.id _ (fun it => rfl)

/-- Witness for C1 at concrete inputs: adding 3 to an existing `p1` line of
quantity 2 yields quantity 5; adding with quantity 0 to an empty cart
inserts quantity 1. -/
theorem C1_addToCart_spec_witness :
    addToCart P1 3 [{ toProduct := P1, quantity := 2 }]
        = [{ toProduct := P1, quantity := 5 }]
    ∧ addToCart P1 0 [] = [{ toProduct := P1, quantity := 1 }] := by
  constructor
  · have h := ((C1_addToCart_spec P1 3 [{ toProduct := P1, quantity := 2 }]).1
      ⟨{ toProduct := P1, quantity := 2 }, by simp, rfl⟩).1
    rw [h]; decide
  · have h := (C1_addToCart_spec P1 0 []).2 (by simp)
    rw [h]; decide

/-- C2: `updateQuantity id q`: for `q ≤ 0` it is exactly `removeFromCart id`;
for `q > 0` every item with that id gets quantity exactly `q` (other items
unchanged); for `q > 0` with no item of that id the cart is unchanged — no
item is inserted. -/
theorem C2_updateQuantity_spec (productId : String) (q : Int)
    (items : List CartItem) :
    (q ≤ 0 → updateQuantity productId q items = removeFromCart productId items)
  ∧ (0 < q → updateQuantity productId q items = items.map (fun item =>
      if item.id == productId then { item with quantity := q } else item))
  ∧ (0 < q → (∀ it ∈ items, it.id ≠ productId) →
      updateQuantity productId q items = items) := by
  refine ⟨fun h => ?_, fun h => ?_, fun h habs => ?_⟩
  · unfold updateQuantity; rw [if_pos h]
  · unfold updateQuantity; rw [if_neg (not_le.mpr h)]
  · unfold updateQuantity
    rw [if_neg (not_le.mpr h)]
    exact map_update_absent items productId _ habs

/-- Witness for C2 at concrete inputs: quantity 0 removes the `p1` item,
quantity 7 sets it exactly, and a positive update for an absent id is a
no-op. -/
theorem C2_updateQuantity_spec_witness :
    updateQuantity "p1" 0 [{ toProduct := P1, quantity := 2 }] = []
    ∧ updateQuantity "p1" 7 [{ toProduct := P1, quantity := 2 }]
        = [{ toProduct := P1, quantity := 7 }]
    ∧ updateQuantity "zz" 7 [{ toProduct := P1, quantity := 2 }]
        = [{ toProduct := P1, quantity := 2 }] := by
  refine ⟨?_, ?_, ?_⟩
  · have h := (C2_updateQuantity_spec "p1" 0
      [{ toProduct := P1, quantity := 2 }]).1 (by decide)
    rw [h]; decide
  · have h := (C2_updateQuantity_spec "p1" 7
      [{ toProduct := P1, quantity := 2 }]).2.1 (by decide)
    rw [h]; decide
  · exact (C2_updateQuantity_spec "zz" 7
      [{ toProduct := P1, quantity := 2 }]).2.2 (by decide) (by decide)

/-- C9: `removeFromCart id` on a cart without that id leaves the cart
completely unchanged (same list, hence same order, total and item count);
in general the surviving elements are exactly those whose id differs, so
when the id is present exactly its line item is deleted. -/
theorem C9_removeFromCart_spec (productId : String) (items : List CartItem) :
    (productId ∉ items.map (fun it => it.id) →
      removeFromCart productId items = items
      ∧ cartTotal (removeFromCart productId items) = cartTotal items
      ∧ itemCount (removeFromCart productId items) = itemCount items)
  ∧ (∀ x, x ∈ removeFromCart productId items ↔ x ∈ items ∧ x.id ≠ productId) := by
  constructor
  · intro h
    have he : removeFromCart productId items = items := by
      unfold removeFromCart
      rw [List.filter_eq_self]
      intro a ha
      have hne : a.id ≠ productId := fun hc => h (by
        rw [← hc]; exact List.mem_map_of_mem (fun it => it.id) ha)
      simpa using hne
    exact ⟨he, by rw [he], by rw [he]⟩
  · intro x
    unfold removeFromCart
    simp [List.mem_filter]

/-- Witness for C9: removing an absent id `"zz"` leaves a one-item cart
unchanged, and the membership characterization holds there. -/
theorem C9_removeFromCart_spec_witness :
    removeFromCart "zz" [{ toProduct := P1, quantity := 2 }]
        = [{ toProduct := P1, quantity := 2 }] :=
  ((C9_removeFromCart_spec "zz" [{ toProduct := P1, quantity := 2 }]).1
    (by decide)).1

lemma foldl_add_eq (f : CartItem → Int) (l : List CartItem) (a : Int) :
    l.foldl (fun acc it => acc + f it) a = a + (l.map f).sum := by
  induction l generalizing a with
  | nil => simp
  | cons x l ih => simp [ih, add_assoc]

lemma cartTotal_eq_sum (items : List CartItem) :
    cartTotal items = (items.map (fun it => it.price * it.quantity)).sum := by
  unfold cartTotal
  rw [foldl_add_eq, zero_add]

lemma itemCount_eq_sum (items : List CartItem) :
    itemCount items = (items.map (fun it => it.quantity)).sum := by
  unfold itemCount
  rw [foldl_add_eq, zero_add]

lemma sum_filter_not_add (p : CartItem → Bool) (f : CartItem → Int)
    (l : List CartItem) :
    ((l.filter (fun x => !p x)).map f).sum + ((l.filter p).map f).sum
      = (l.map f).sum := by
  induction l with
  | nil => simp
  | cons a l ih =>
      cases h : p a with
      | false => simp [List.filter_cons, h]; omega
      | true => simp [List.filter_cons, h]; omega

lemma removeFromCart_eq_filter_not (productId : String)
    (items : List CartItem) :
    removeFromCart productId items
      = items.filter (fun it => !(it.id == productId)) := rfl

/-- C5: `cartTotal` is the sum of `price * quantity` over the items and
`itemCount` the sum of the quantities; after `clearCart` both are 0, and
removing an id splits off exactly that id's contribution (so after a
removal the removed items' contribution is excluded). -/
theorem C5_derived_totals (items : List CartItem) (productId : String) :
    cartTotal items = (items.map (fun it => it.price * it.quantity)).sum
  ∧ itemCount items = (items.map (fun it => it.quantity)).sum
  ∧ cartTotal (clearCart items) = 0
  ∧ itemCount (clearCart items) = 0
  ∧ cartTotal (removeFromCart productId items)
      + ((items.filter (fun it => it.id == productId)).map
          (fun it => it.price * it.quantity)).sum = cartTotal items
  ∧ itemCount (removeFromCart productId items)
      + ((items.filter (fun it => it.id == productId)).map
          (fun it => it.quantity)).sum = itemCount items := by
  refine ⟨cartTotal_eq_sum items, itemCount_eq_sum items, rfl, rfl, ?_, ?_⟩
  · rw [cartTotal_eq_sum, cartTotal_eq_sum, removeFromCart_eq_filter_not]
    exact sum_filter_not_add (fun it => it.id == productId)
      (fun it => it.price * it.quantity) items
  · rw [itemCount_eq_sum, itemCount_eq_sum, removeFromCart_eq_filter_not]
    exact sum_filter_not_add (fun it => it.id == productId)
      (fun it => it.quantity) items

lemma applyOp_quantity_nonneg (items : List CartItem) (op : CartOp)
    (h : ∀ it ∈ items, 0 ≤ it.quantity) :
    ∀ it ∈ applyOp items op, 0 ≤ it.quantity := by
  cases op with
  | add p q =>
      intro it hit
      by_cases hp : ∃ x ∈ items, x.id = p.id
      · rw [show applyOp items (.add p q) = addToCart p q items from rfl,
          addToCart_of_present p q items hp] at hit
        obtain ⟨x, hx, rfl⟩ := List.mem_map.mp hit
        by_cases hc : x.id == p.id
        · rw [if_pos hc]
          exact le_max_left 0 _
        · rw [if_neg hc]
          exact h x hx
      · push_neg at hp
        rw [show applyOp items (.add p q) = addToCart p q items from rfl,
          addToCart_of_absent p q items hp] at hit
        rcases List.mem_append.mp hit with hmem | hmem
        · exact h it hmem
        · rw [List.mem_singleton.mp hmem]
          exact le_trans zero_le_one (le_max_left 1 q)
  | remove productId =>
      intro it hit
      exact h it (List.mem_of_mem_filter hit)
  | setQ productId q =>
      intro it hit
      rw [show applyOp items (.setQ productId q) = updateQuantity productId q items
        from rfl] at hit
      unfold updateQuantity at hit
      by_cases hq : q ≤ 0
      · rw [if_pos hq] at hit
        exact h it (List.mem_of_mem_filter hit)
      · rw [if_neg hq] at hit
        obtain ⟨x, hx, rfl⟩ := List.mem_map.mp hit
        by_cases hc : x.id == productId
        · rw [if_pos hc]
          exact le_of_lt (lt_of_not_le hq)
        · rw [if_neg hc]
          exact h x hx
  | clear =>
      intro it hit
      simp [applyOp, clearCart] at hit

lemma foldl_applyOp_nonneg (ops : List CartOp) :
    ∀ s : List CartItem, (∀ it ∈ s, 0 ≤ it.quantity) →
      ∀ it ∈ ops.foldl applyOp s, 0 ≤ it.quantity := by
  induction ops with
  | nil => intro s hs; simpa using hs
  | cons op ops ih =>
      intro s hs
      exact ih (applyOp s op) (applyOp_quantity_nonneg s op hs)

/-- C3 (amended): in every cart state reachable from the empty cart via the
store's mutation operations, every line item has quantity ≥ 0 (not ≥ 1:
`addToCart` with a negative delta clamps an existing item at 0 and leaves
the zero-quantity item in the cart); only `updateQuantity` with a
non-positive quantity and `removeFromCart` remove items. -/
theorem C3_quantity_nonneg_invariant (ops : List CartOp) :
    ∀ it ∈ runOps ops, 0 ≤ it.quantity :=
  foldl_applyOp_nonneg ops [] (by simp)

/-- Witness for C3 at a concrete reachable state. -/
theorem C3_quantity_nonneg_invariant_witness :
    (0 : Int) ≤ ({ toProduct := P1, quantity := 2 } : CartItem).quantity :=
  C3_quantity_nonneg_invariant [CartOp.add P1 2]
    { toProduct := P1, quantity := 2 } (by decide)

/-- C3 counterexample: after `addToCart P1 1` then `addToCart P1 (-1)` the
reachable state holds the `p1` line item with quantity 0 — the mutation's
quantity arithmetic reached 0 yet the item was not removed, refuting the
claimed `quantity ≥ 1` invariant. -/
theorem C3_zero_quantity_reachable :
    runOps [CartOp.add P1 1, CartOp.add P1 (-1)]
      = [{ toProduct := P1, quantity := 0 }]
    ∧ ¬ (∀ it ∈ runOps [CartOp.add P1 1, CartOp.add P1 (-1)],
          1 ≤ it.quantity) := by
  constructor
  · decide
  · decide

lemma applyOp_nodup_ids (items : List CartItem) (op : CartOp)
    (h : (items.map (fun it => it.id)).Nodup) :
    ((applyOp items op).map (fun it => it.id)).Nodup := by
  cases op with
  | add p q =>
      by_cases hp : ∃ x ∈ items, x.id = p.id
      · rw [show applyOp items (.add p q) = addToCart p q items from rfl,
          addToCart_of_present p q items hp,
          map_update_id items p.id
            (fun item => { item with quantity := max 0 (item.quantity + q) })
            (fun it => rfl)]
        exact h
      · push_neg at hp
        rw [show applyOp items (.add p q) = addToCart p q items from rfl,
          addToCart_of_absent p q items hp, List.map_append]
        refine List.Nodup.append h (List.nodup_singleton _) ?_
        intro a ha hb
        obtain ⟨x, hx, rfl⟩ := List.mem_map.mp ha
        exact hp x hx (by simpa using hb)
  | remove productId =>
      exact List.Nodup.sublist
        (List.Sublist.map (fun it => it.id) (List.filter_sublist items)) h
  | setQ productId q =>
      rw [show applyOp items (.setQ productId q)
        = updateQuantity productId q items from rfl]
      unfold updateQuantity
      by_cases hq : q ≤ 0
      · rw [if_pos hq]
        exact List.Nodup.sublist
          (List.Sublist.map (fun it => it.id) (List.filter_sublist items)) h
      · rw [if_neg hq, map_update_id items productId
            (fun item => { item with quantity := q }) (fun it => rfl)]
        exact h
  | clear => simp [applyOp, clearCart]

lemma foldl_applyOp_nodup (ops : List CartOp) :
    ∀ s : List CartItem, ((s.map (fun it => it.id)).Nodup) →
      (((ops.foldl applyOp s).map (fun it => it.id)).Nodup) := by
  induction ops with
  | nil => intro s hs; simpa using hs
  | cons op ops ih =>
      intro s hs
      exact ih (applyOp s op) (applyOp_nodup_ids s op hs)

/-- C6 (amended): every cart state reachable from the empty cart via the
mutation operations has at most one line item per product identifier (the
id list is duplicate-free); the hydration path does not preserve this — it
accepts any parsed array, including one with duplicate identifiers. -/
theorem C6_unique_ids_invariant (ops : List CartOp) :
    ((runOps ops).map (fun it => it.id)).Nodup :=
  foldl_applyOp_nodup ops [] (by simp)

/-- C6 counterexample: hydration accepts a stored array holding two
well-formed line items that share the identifier `"p1"` — the resulting
store state has two entries for one product identifier, so the uniqueness
invariant does not extend over the hydration path. -/
theorem C6_hydration_duplicate_ids :
    hydrate (some (Except.ok (Json.arr
        [encodeItem { toProduct := P1, quantity := 1 },
         encodeItem { toProduct := P1, quantity := 2 }])))
      = ([encodeItem { toProduct := P1, quantity := 1 },
          encodeItem { toProduct := P1, quantity := 2 }], false)
    ∧ isLineItemSeq (Json.arr
        [encodeItem { toProduct := P1, quantity := 1 },
         encodeItem { toProduct := P1, quantity := 2 }]) = true
    ∧ jsonId (encodeItem { toProduct := P1, quantity := 1 }) = some "p1"
    ∧ jsonId (encodeItem { toProduct := P1, quantity := 2 }) = some "p1"
    ∧ ¬ (((hydrate (some (Except.ok (Json.arr
          [encodeItem { toProduct := P1, quantity := 1 },
           encodeItem { toProduct := P1, quantity := 2 }])))).1.map
            jsonId).Nodup) := by
  refine ⟨rfl, rfl, rfl, rfl, ?_⟩
  decide

lemma addSeq_cons (p : Product) (q : Int) (rest : List Int)
    (s : List CartItem) :
    addSeq p (q :: rest) s = addSeq p rest (addToCart p q s) := rfl

lemma addToCart_grow_last (p : Product) (q : Int) (items : List CartItem)
    (n : Int) (hn : 1 ≤ n) (hq : 1 ≤ q)
    (hni : ∀ it ∈ items, it.id ≠ p.id) :
    addToCart p q (items ++ [{ toProduct := p, quantity := n }])
      = items ++ [{ toProduct := p, quantity := n + q }] := by
  rw [addToCart_of_present p q _
    ⟨{ toProduct := p, quantity := n }, by simp, rfl⟩, List.map_append]
  congr 1
  · exact map_update_absent items p.id
      (fun item => { item with quantity := max 0 (item.quantity + q) }) hni
  · simp only [List.map_cons, List.map_nil]
    rw [if_pos (by simp)]
    have : max 0 (n + q) = n + q := by omega
    rw [this]

lemma addSeq_grow (p : Product) (rest : List Int) :
    ∀ (items : List CartItem) (n : Int), 1 ≤ n → (∀ q ∈ rest, 1 ≤ q) →
      (∀ it ∈ items, it.id ≠ p.id) →
      addSeq p rest (items ++ [{ toProduct := p, quantity := n }])
        = items ++ [{ toProduct := p, quantity := n + rest.sum }] := by
  induction rest with
  | nil => intro items n hn hq hni; simp [addSeq]
  | cons q rest ih =>
      intro items n hn hq hni
      have hq1 : 1 ≤ q := hq q (List.mem_cons_self q rest)
      rw [addSeq_cons, addToCart_grow_last p q items n hn hq1 hni,
        ih items (n + q) (by omega)
          (fun x hx => hq x (List.mem_cons_of_mem q hx)) hni,
        List.sum_cons, ← add_assoc]

/-- C4 (amended): for every non-empty sequence of `addToCart` calls with
the same product and positive quantities (each ≥ 1), starting from a cart
without that product's id, the result appends exactly one line item for
that id whose quantity is the sum of the call quantities; in particular
adding `P1` (price 10) with quantities 2 then 3 to the empty cart yields
one line item of quantity 5, `cartTotal = 50` and `itemCount = 5`.  (The
restriction to positive quantities is forced: with a negative delta the
running quantity is clamped at 0, so it need not equal the sum.) -/
theorem C4_addSeq_spec (p : Product) (q1 : Int) (qs : List Int)
    (items : List CartItem) (h1 : 1 ≤ q1) (hqs : ∀ q ∈ qs, 1 ≤ q)
    (hni : ∀ it ∈ items, it.id ≠ p.id) :
    addSeq p (q1 :: qs) items
      = items ++ [{ toProduct := p, quantity := (q1 :: qs).sum }]
  ∧ ((addSeq p (q1 :: qs) items).filter
      (fun it => it.id == p.id)).length = 1
  ∧ addSeq P1 [2, 3] [] = [{ toProduct := P1, quantity := 5 }]
  ∧ cartTotal (addSeq P1 [2, 3] []) = 50
  ∧ itemCount (addSeq P1 [2, 3] []) = 5 := by
  have hmain : addSeq p (q1 :: qs) items
      = items ++ [{ toProduct := p, quantity := (q1 :: qs).sum }] := by
    rw [addSeq_cons, addToCart_of_absent p q1 items hni,
      max_eq_right h1, addSeq_grow p qs items q1 h1 hqs hni, List.sum_cons]
  refine ⟨hmain, ?_, by decide, by decide, by decide⟩
  rw [hmain, List.filter_append]
  have h0 : items.filter (fun it => it.id == p.id) = [] := by
    rw [List.filter_eq_nil_iff]
    intro a ha
    simpa using hni a ha
  rw [h0]
  simp

/-- Witness for C4: the spec's scenario, obtained from the theorem at
`P1`, quantities `[2, 3]`, empty initial cart. -/
theorem C4_addSeq_spec_witness :
    addSeq P1 (2 :: [3]) []
      = [] ++ [{ toProduct := P1, quantity := ((2 : Int) :: [3]).sum }] :=
  (C4_addSeq_spec P1 2 [3] [] (by decide) (by decide) (by decide)).1

/-- C4 counterexample: the claim quantifies over every sequence of call
quantities, but for the calls `addToCart P1 2` then `addToCart P1 (-5)`
on the empty cart the resulting quantity is 0 (clamped), which is neither
the plain sum `2 + (-5)` nor the sum with each quantity clamped to ≥ 1. -/
theorem C4_negative_delta_counterexample :
    addSeq P1 [2, -5] [] = [{ toProduct := P1, quantity := 0 }]
    ∧ (2 : Int) + (-5) ≠ 0
    ∧ max 1 2 + max 1 (-5) ≠ (0 : Int) := by
  exact ⟨by decide, by decide, by decide⟩

/-- C7 (amended): the hydration effect keeps the store empty and does not
touch storage when nothing is stored; a parse failure is caught, leaves
the store empty and deletes the entry; a parsed array replaces the state
with its raw entries (the array's elements are NOT validated as line
items); any parsed non-array value (for example the object parsed from
`"\x7b\x7d"`, or the `null` parsed from `"null"`) leaves the store empty
and deletes the entry.  The stored inputs `"\x7bnot json"`, `"\x7b\x7d"`
and `"null"` therefore each yield an empty store and removal of the
entry: the first fails to parse (second conjunct), the others parse to a
non-array (last two conjuncts). -/
theorem C7_hydration_spec :
    hydrate none = ([], false)
  ∧ (∀ e, hydrate (some (Except.error e)) = ([], true))
  ∧ (∀ elems, hydrate (some (Except.ok (Json.arr elems))) = (elems, false))
  ∧ (∀ j, (∀ elems, j ≠ Json.arr elems) →
      hydrate (some (Except.ok j)) = ([], true))
  ∧ hydrate (some (Except.ok (Json.obj []))) = ([], true)
  ∧ hydrate (some (Except.ok Json.null)) = ([], true) := by
  refine ⟨rfl, fun e => rfl, fun elems => rfl, ?_, rfl, rfl⟩
  intro j hj
  cases j with
  | arr elems => exact absurd rfl (hj elems)
  | null => rfl
  | bool b => rfl
  | num n => rfl
  | str s => rfl
  | obj fields => rfl

/-- Witness for C7 at a concrete non-array parse result. -/
theorem C7_hydration_spec_witness :
    hydrate (some (Except.ok (Json.num 7))) = ([], true) :=
  C7_hydration_spec.2.2.2.1 (Json.num 7)
    (fun _ h => Json.noConfusion h)

/-- C7 counterexample: the claim says the parsed value replaces the empty
state only if it is a well-formed sequence of line items, but the code
only checks `Array.isArray`: the parsed array `[0]` is accepted and
becomes the store state even though it is not a sequence of line items. -/
theorem C7_accepts_malformed_entries :
    hydrate (some (Except.ok (Json.arr [Json.num 0]))) = ([Json.num 0], false)
    ∧ isLineItemSeq (Json.arr [Json.num 0]) = false
    ∧ ([Json.num 0] : List Json) ≠ [] := by
  refine ⟨rfl, rfl, ?_⟩
  simp

lemma decodeStrs_map_str (l : List String) :
    decodeStrs (l.map Json.str) = some l := by
  induction l with
  | nil => rfl
  | cons s l ih => simp [decodeStrs, ih]

lemma decodeItem_encodeItem (it : CartItem) :
    decodeItem (encodeItem it) = some it := by
  have h : decodeItem (encodeItem it)
      = (decodeStrs (it.images.map Json.str)).map (fun images =>
          (⟨⟨it.id, it.name, it.price, images, it.inStock,
            it.categoryName⟩, it.quantity⟩ : CartItem)) := rfl
  rw [h, decodeStrs_map_str]
  rfl

lemma decodeCart_map_encode (items : List CartItem) :
    decodeCart (items.map encodeItem) = some items := by
  induction items with
  | nil => rfl
  | cons a l ih => simp [decodeCart, decodeItem_encodeItem, ih]

/-- C8: serializing the cart as the persistence effect writes it
(`JSON.stringify(cartItems)`, a JSON array of the items' objects) and
hydrating from that value replaces the (cleared, empty) store with
exactly the serialized entries — an array is always accepted — and those
entries decode back to precisely the original line items (in the same
order, hence an equivalent set), so any decoded state has the same
`cartTotal` and `itemCount` as the original. -/
theorem C8_round_trip (items : List CartItem) :
    hydrate (some (Except.ok (encodeCart items))) = (items.map encodeItem, false)
  ∧ decodeCart ((hydrate (some (Except.ok (encodeCart items)))).1) = some items
  ∧ (∀ decoded,
      decodeCart ((hydrate (some (Except.ok (encodeCart items)))).1)
          = some decoded →
      cartTotal decoded = cartTotal items ∧ itemCount decoded = itemCount items) := by
  refine ⟨rfl, decodeCart_map_encode items, ?_⟩
  intro decoded hdec
  have hh : (hydrate (some (Except.ok (encodeCart items)))).1
      = items.map encodeItem := rfl
  rw [hh, decodeCart_map_encode items] at hdec
  rw [← Option.some_inj.mp hdec]
  exact ⟨rfl, rfl⟩

/-- Witness for C8 on a concrete one-item cart. -/
theorem C8_round_trip_witness :
    cartTotal [{ toProduct := P1, quantity := 2 }]
        = cartTotal [{ toProduct := P1, quantity := 2 }]
    ∧ itemCount [{ toProduct := P1, quantity := 2 }]
        = itemCount [{ toProduct := P1, quantity := 2 }] :=
  (C8_round_trip [{ toProduct := P1, quantity := 2 }]).2.2
    [{ toProduct := P1, quantity := 2 }] (by decide)

/-- C10: `useCart` with no provider in scope (context value undefined)
yields exactly the error `useCart must be used within a CartProvider`;
with a provider in scope it returns the provider's context value. -/
theorem C10_useCart_spec :
    useCart none = Except.error "useCart must be used within a CartProvider"
  ∧ ∀ ctx : CartContextType, useCart (some ctx) = Except.ok ctx :=
  ⟨rfl, fun _ => rfl⟩
